import Mathlib

/-!
# Verification of the kyua TAP parser (`kyua-testers/tap_parser.c`)

This file gives a shallow embedding of the TAP stream parser of kyua:
the summary accumulator `kyua_tap_summary`, the plan-line probe
`kyua_tap_try_parse_plan`, the per-line classification against the two
result grammars, the bail-out detection, the stream loop of
`kyua_tap_parse`, and the post-loop summary validation.

Modelling conventions:

* A line is a `List Char`; the newline has already been stripped, as done
  by `kyua_text_fgets_no_newline` in the C code.  The input stream is the
  list of such lines, in arrival order.  (The line source itself lives in
  `text.c`, outside the embedded file; following its spec it yields
  successive newline-stripped lines, so the stream is represented directly
  as that list.)
* The three POSIX extended regular expressions of the C file are embedded
  as deterministic matching functions.  The capture spans produced by a
  POSIX `regexec` for these particular patterns are the maximal-munch
  spans computed here; in particular, by the POSIX rule that a null
  match of a subexpression is preferred over the subexpression not
  participating, the final group `(.*)?$` of the general result grammar
  always participates (possibly with an empty span), so its `rm_so` is
  never `-1` once the pattern matches.  This was cross-checked against a
  live POSIX `regexec` on every shape of line used below.
* C `long` is modelled as mathematical integers with the explicit LP64
  bound `LONG_MAX = 2^63 - 1` where the code checks ranges; the numeric
  captures are digit strings, hence nonnegative, so `LONG_MIN` is
  unreachable.
* Engine-level failures (`fdopen`, `regcomp`, `regexec` hard errors)
  cannot arise in the embedding: the three patterns are fixed, valid
  extended regular expressions and the stream is given as data.  The
  `error` field of the parse result models the `kyua_error_t` return
  value, which is therefore always "ok" here.
-/

/-! ## Character and string helpers -/

/-- A decimal digit, the character class `[0-9]` of the patterns. -/
def isDig (c : Char) : Bool := '0' ≤ c && c ≤ '9'

/-- A blank, the character class `[ \t]` of the patterns. -/
def isWsChar (c : Char) : Bool := c == ' ' || c == '\t'

/-- `leadsWith p l` is true iff `p` is an initial segment of `l`
(the check `strstr(line, m) == line` and the literal heads of the
patterns). -/
def leadsWith : List Char → List Char → Bool
  | [], _ => true
  | _ :: _, [] => false
  | a :: as, b :: bs => a == b && leadsWith as bs

/-- `containsSub needle hay` is true iff `needle` occurs as a contiguous
substring of `hay`: the C `strstr(hay, needle) != NULL`. -/
def containsSub (needle : List Char) : List Char → Bool
  | [] => leadsWith needle []
  | c :: t => leadsWith needle (c :: t) || containsSub needle t

/-- ASCII lower-casing on code points, as done by `tolower` in the "C"
locale for the ASCII letters that matter to `SKIP`/`TODO` searches. -/
def lowerCode (n : Nat) : Nat := if 65 ≤ n && n ≤ 90 then n + 32 else n

/-- Case-insensitive character equality, the comparison of
`strcasestr`. -/
def charCI (a b : Char) : Bool := lowerCode a.toNat == lowerCode b.toNat

/-- Case-insensitive initial-segment test. -/
def leadsWithCI : List Char → List Char → Bool
  | [], _ => true
  | _ :: _, [] => false
  | a :: as, b :: bs => charCI a b && leadsWithCI as bs

/-- `containsCISub needle hay` is true iff `needle` occurs in `hay` up to
ASCII case: the C `strcasestr(hay, needle) != NULL`. -/
def containsCISub (needle : List Char) : List Char → Bool
  | [] => leadsWithCI needle []
  | c :: t => leadsWithCI needle (c :: t) || containsCISub needle t

/-- View a string literal as the line it denotes. -/
def strL (s : String) : List Char := s.toList

/-- `natOfDigits cs` is the numeric value of a decimal digit string, the
value computed by `strtol(buffer, &endptr, 10)` on a pure digit string
(no sign, no leading blanks), before any clamping. -/
def natOfDigits (cs : List Char) : Nat :=
  cs.foldl (fun a c => 10 * a + (c.toNat - 48)) 0

/-! ## The summary accumulator -/

/-- `LONG_MAX` of the modelled LP64 platform. -/
def LONG_MAX : Nat := 2 ^ 63 - 1

/-- The `kyua_tap_summary_t` accumulator of `tap_parser.h`, with the
fields exactly as the C file reads and writes them.  Counters are
nonnegative and the plan bounds are `long`s holding either the sentinel
`-1` or a committed plan number. -/
structure kyua_tap_summary where
  first_index : Int
  last_index : Int
  ok_count : Nat
  not_ok_count : Nat
  skipped_all : Bool
  bail_out : Bool
  parse_error : Option String
deriving DecidableEq, Repr

/-- Modelled from the spec: `kyua_tap_summary_new` (declared in the
`tap_parser.h` header, not among the embedded files) creates the fresh
accumulator: counters zero, plan unset (sentinel `-1`), flags false,
`parse_error` unset. -/
def kyua_tap_summary_new : kyua_tap_summary :=
  { first_index := -1, last_index := -1, ok_count := 0, not_ok_count := 0,
    skipped_all := false, bail_out := false, parse_error := none }

/-! ## The plan grammar `^([0-9]+)\.\.([0-9]+)(.*#.*)?$`

A match decomposes the line as `d1 ++ ".." ++ d2 ++ t` with `d1`, `d2`
nonempty digit runs and the optional third group matching `t` exactly
when `t` contains `#` (it cannot match an empty `t`, so the group is
unset when `t` is empty).  Maximal digit runs are forced: a shorter `d1`
would leave a digit where the literal `.` is required, and a shorter
`d2` only moves digits into `t` without creating a `#`. -/

/-- Result of matching the plan pattern: the two numeric captures and the
optional trailing capture (group 3), or `none` if the line is not a
plan line. -/
def planMatch (l : List Char) : Option (List Char × List Char × Option (List Char)) :=
  match l.dropWhile isDig with
  | a :: b :: r2 =>
    if a = '.' ∧ b = '.' ∧ l.takeWhile isDig ≠ [] ∧ r2.takeWhile isDig ≠ [] then
      if r2.dropWhile isDig = [] then
        some (l.takeWhile isDig, r2.takeWhile isDig, none)
      else if (r2.dropWhile isDig).contains '#' then
        some (l.takeWhile isDig, r2.takeWhile isDig, some (r2.dropWhile isDig))
      else none
    else none
  | _ => none

/-- `regex_match_too_long` of `tap_parser.c`: copies the capture into a
64-byte buffer (so more than 63 digits is "Plan line too long") and runs
`strtol`, rejecting `ERANGE` as well as results equal to `LONG_MAX` or
`LONG_MIN` ("Plan line includes out of range numbers").  On a
nonnegative digit string `strtol` clamps at `LONG_MAX` with `ERANGE`
exactly when the value exceeds it, so the rejection condition is
`value ≥ LONG_MAX`. -/
def regex_match_too_long (cap : List Char) : Except String Nat :=
  if 63 < cap.length then .error "Plan line too long"
  else if LONG_MAX ≤ natOfDigits cap then .error "Plan line includes out of range numbers"
  else .ok (natOfDigits cap)

/-- The tail of `kyua_tap_try_parse_plan`: the reversed-plan check and
the commit of the plan bounds. -/
def planCommit (s : kyua_tap_summary) (fi li : Nat) : kyua_tap_summary :=
  if s.skipped_all = false ∧ li < fi then
    { s with parse_error := some "Test plan is reversed" }
  else
    { s with first_index := (fi : Int), last_index := (li : Int) }

/-- The directive handling of `kyua_tap_try_parse_plan` when group 3 is
present: the 1024-byte length bound, then the case-sensitive `SKIP`
search (`strstr` from the group's start, which runs to the end of the
line), which flags `skipped_all` and reports the ordering violation when
results or a bail-out were already recorded. -/
def planSkipFlags (s : kyua_tap_summary) (t : List Char) : kyua_tap_summary :=
  if containsSub (strL "SKIP") t then
    if s.ok_count ≠ 0 ∨ s.not_ok_count ≠ 0 ∨ s.bail_out = true then
      { s with parse_error := some "No plan found in TAP output", skipped_all := true }
    else { s with skipped_all := true }
  else s

/-- See the previous comment: the length bound, then the `SKIP`
handling, then the reversed-plan check and commit. -/
def planDirective (s : kyua_tap_summary) (t : List Char) (fi li : Nat) : kyua_tap_summary :=
  if 1024 < t.length then
    { s with parse_error := some "Description attached to plan too long" }
  else
    planCommit (planSkipFlags s t) fi li

/-- `kyua_tap_try_parse_plan` of `tap_parser.c`.  On a non-plan line the
summary is unchanged; on a plan line: duplicate-plan check, the two
numeric captures through `regex_match_too_long`, `skipped_all` reset,
directive handling, reversed-plan check, commit.  Engine errors
(`regcomp`/`regexec` hard failures) cannot occur for this fixed valid
pattern, so the `kyua_error_t` return is always "ok" and is omitted. -/
def kyua_tap_try_parse_plan (line : List Char) (s : kyua_tap_summary) : kyua_tap_summary :=
  match planMatch line with
  | none => s
  | some (d1, d2, t?) =>
    if s.first_index ≠ -1 then
      { s with parse_error := some "Output includes two test plans" }
    else
      match regex_match_too_long d1 with
      | .error e => { s with parse_error := some e }
      | .ok fi =>
        match regex_match_too_long d2 with
        | .error e => { s with parse_error := some e }
        | .ok li =>
          let s := { s with skipped_all := false }
          match t? with
          | some t => planDirective s t fi li
          | none => planCommit s fi li

/-! ## The result grammars

Simple: `^(not )?ok[ \t]+[0-9]+[ \t]+([^#]+)?$`.
General: `^(not )?ok[ \t]*([0-9]+)?([^#]+)?(.*)?$`.

Both start with the optional literal `not ` followed by the literal
`ok`; a line starting with `not ` can only match through the group (the
remainder then starts with `ok`), and a line not starting with `not `
can only match without it, so the leading marker is determined by the
line. -/

/-- The `not ` marker of group 1. -/
def notMarker : List Char := strL "not "

/-- Split off the optional `not ` marker: the boolean is the presence of
group 1 (`rm_so != -1`). -/
def stripMarker (l : List Char) : Bool × List Char :=
  if leadsWith notMarker l then (true, l.drop 4) else (false, l)

/-- The condition the simple grammar puts on the remainder after its
digit run: the pattern still needs at least one blank and then an
optional `#`-free capture reaching the end of the line, which is
satisfiable iff the remainder is nonempty, starts with a blank and
contains no `#`. -/
def wsHeadNoHash : List Char → Bool
  | [] => false
  | c :: t => isWsChar c && !(c :: t).contains '#'

/-- Matching the simple result grammar (see the section comment for why
the blank and digit runs are forced maximal and why the condition on the
remainder `r3` after the digits is: nonempty, opening with a blank and
`#`-free — this is `wsHeadNoHash`).  Returns the presence of the `not `
marker, the only datum `kyua_tap_parse` reads from this match. -/
def simpleMatch (l : List Char) : Option Bool :=
  match (stripMarker l).2 with
  | a :: b :: r1 =>
    if a = 'o' ∧ b = 'k' ∧ r1.takeWhile isWsChar ≠ [] ∧
        (r1.dropWhile isWsChar).takeWhile isDig ≠ [] ∧
        wsHeadNoHash ((r1.dropWhile isWsChar).dropWhile isDig) = true then
      some (stripMarker l).1
    else none
  | _ => none

/-- Matching the general result grammar.  Any line whose
marker-stripped form starts with `ok` matches: groups 2 and 3 are
optional and the final `(.*)?$` absorbs the rest.  The captures are the
maximal blank run, the maximal digit run (group 2), the maximal
`#`-free run (group 3), and group 4 is the remaining suffix, which runs
to the end of the line.  Group 4 always participates, possibly with an
empty span (POSIX prefers a null subexpression match over no
participation), so `rm_so` of group 4 is never `-1` here; the function
returns the marker presence and the group-4 suffix, the data
`kyua_tap_parse` reads from this match. -/
def generalMatch (l : List Char) : Option (Bool × List Char) :=
  match (stripMarker l).2 with
  | a :: b :: r1 =>
    if a = 'o' ∧ b = 'k' then
      some ((stripMarker l).1,
        ((r1.dropWhile isWsChar).dropWhile isDig).dropWhile (fun c => !(c == '#')))
    else none
  | _ => none

/-- The per-line classification of `kyua_tap_parse`: the simple grammar
first (group 1 present ⇒ failure, else pass), then the general grammar
(failure exactly when the marker is present and the suffix from group
4's start contains neither `SKIP` nor `TODO` case-insensitively — the
`strcasestr` calls — else pass); a line matching neither grammar is
inert. -/
def classifyLine (line : List Char) (s : kyua_tap_summary) : kyua_tap_summary :=
  match simpleMatch line with
  | some true => { s with not_ok_count := s.not_ok_count + 1 }
  | some false => { s with ok_count := s.ok_count + 1 }
  | none =>
    match generalMatch line with
    | some (m, g4) =>
      if m && !containsCISub (strL "SKIP") g4 && !containsCISub (strL "TODO") g4 then
        { s with not_ok_count := s.not_ok_count + 1 }
      else
        { s with ok_count := s.ok_count + 1 }
    | none => s

/-! ## The stream loop and the post-loop validation -/

/-- The bail-out marker check: `strstr(line, "Bail out!") == line`. -/
def hasBailMarker (line : List Char) : Bool :=
  leadsWith (strL "Bail out!") line

/-- One loop body of `kyua_tap_parse` on a consumed nonempty line: the
plan probe (which cannot raise an engine error here), then the bail-out
check (which skips classification for the rest of the iteration), then
the two result grammars.  The C code reaches the bail-out check and the
classification even when the plan probe has just recorded a semantic
`parse_error`; the loop condition only reacts on the next iteration. -/
def processLine (line : List Char) (s : kyua_tap_summary) : kyua_tap_summary :=
  let s1 := kyua_tap_try_parse_plan line s
  if hasBailMarker line then { s1 with bail_out := true }
  else classifyLine line s1

/-- The `while` loop of `kyua_tap_parse`.  The condition — no engine
error (never raised here), `parse_error` unset, no bail-out, a line
available, line nonempty — is evaluated before each read, so once a stop
flag is set no further line is consumed.  A terminating empty line is
consumed by `fgets` but the body (and hence the echo) never runs for it.
Returns the final summary, the echoed lines and the consumed lines. -/
def tapLoop : kyua_tap_summary → List (List Char) →
    kyua_tap_summary × List (List Char) × List (List Char)
  | s, [] => (s, [], [])
  | s, line :: rest =>
    if s.parse_error ≠ none ∨ s.bail_out = true then (s, [], [])
    else if line = [] then (s, [], [line])
    else
      let r := tapLoop (processLine line s) rest
      (r.1, line :: r.2.1, line :: r.2.2)

/-- The post-loop block of `kyua_tap_parse`: if no plan was committed,
`parse_error` is assigned "No plan found in TAP output" (this branch
does not test whether `parse_error` was already set); otherwise, when
`parse_error` is unset and no bail-out occurred, the declared range is
compared with the observed count.  The `long` subtraction cannot
overflow: committed bounds lie in `[0, LONG_MAX)`. -/
def validateSummary (s : kyua_tap_summary) : kyua_tap_summary :=
  if s.first_index = -1 then
    { s with parse_error := some "No plan found in TAP output" }
  else if s.parse_error = none ∧ s.bail_out = false then
    if s.last_index - s.first_index + 1 ≠ (s.ok_count : Int) + (s.not_ok_count : Int) then
      { s with parse_error := some "Reported plan differs from actual executed tests" }
    else s
  else s

/-- The outcome of `kyua_tap_parse`: the populated summary, the lines
echoed to the output sink in order, the lines consumed from the input
stream in order, and the `kyua_error_t` return value (`none` = "ok";
with the three fixed valid patterns and the stream given as data no
engine error can arise, so it is always "ok" in the model). -/
structure ParseResult where
  summary : kyua_tap_summary
  echoed : List (List Char)
  consumed : List (List Char)
  error : Option String
deriving DecidableEq, Repr

/-- `kyua_tap_parse` of `tap_parser.c` on a stream of newline-stripped
lines: fresh summary, the line loop, then the post-loop validation. -/
def kyua_tap_parse (input : List (List Char)) : ParseResult :=
  let r := tapLoop kyua_tap_summary_new input
  { summary := validateSummary r.1, echoed := r.2.1, consumed := r.2.2, error := none }

/-! ## Streams of the form `1..N` followed by passing result lines

The following definitions build, inside the logic, the concrete streams
that the testable properties quantify over: the canonical decimal
spelling of a number, the plan line `1..N`, and the notion of a result
line that carries no `not ` marker. -/

/-- The line counts as a pass-result line: it matches the general result
grammar with the `not ` marker absent (a line matching the simple
grammar without the marker also matches the general grammar without it,
so this covers both result grammars). -/
def isOkResultLine (l : List Char) : Bool :=
  match generalMatch l with
  | some (false, _) => true
  | _ => false

/-- The character of a decimal digit value. -/
def natDigitChar : Nat → Char
  | 0 => '0' | 1 => '1' | 2 => '2' | 3 => '3' | 4 => '4'
  | 5 => '5' | 6 => '6' | 7 => '7' | 8 => '8' | _ => '9'

/-- Big-endian decimal digits of `n`, with explicit fuel so that the
recursion is structural; `fuel` bounds the number of digits. -/
def decDigitsFuel : Nat → Nat → List Char
  | 0, _ => []
  | _ + 1, 0 => []
  | fuel + 1, n + 1 =>
    decDigitsFuel fuel ((n + 1) / 10) ++ [natDigitChar ((n + 1) % 10)]

/-- The canonical decimal spelling of `n` (64 digits of fuel cover every
number below `10^64`, far beyond every bound in the parser). -/
def decimalRepr (n : Nat) : List Char := decDigitsFuel 64 n

/-- The plan line `1..N`. -/
def planLine (n : Nat) : List Char := '1' :: '.' :: '.' :: decimalRepr n

/-- The minimal passing result line `ok`. -/
def okLine : List Char := strL "ok"

example : planMatch (strL "1..3") = some (strL "1", strL "3", none) := by decide
example : planMatch (strL "1..0 # SKIP no tests") = some (strL "1", strL "0", some (strL " # SKIP no tests")) := by decide
example : planMatch (strL "1..23#x") = some (strL "1", strL "23", some (strL "#x")) := by decide
example : planMatch (strL "1..2..3") = none := by decide
example : planMatch (strL "12..34 no hash trailing") = none := by decide
example : simpleMatch (strL "ok 1 foo") = some false := by decide
example : simpleMatch (strL "not ok 1 foo") = some true := by decide
example : simpleMatch (strL "ok 1 ") = some false := by decide
example : simpleMatch (strL "ok 1") = none := by decide
example : simpleMatch (strL "not ok 1 # TODO known issue") = none := by decide
example : simpleMatch (strL "ok 12a b") = none := by decide
example : generalMatch (strL "not ok 1 # TODO known issue") = some (true, strL "# TODO known issue") := by decide
example : generalMatch (strL "not ok 1") = some (true, []) := by decide
example : generalMatch (strL "ok") = some (false, []) := by decide
example : generalMatch (strL "not ok# fail") = some (true, strL "# fail") := by decide
example : generalMatch (strL "okay then") = some (false, []) := by decide
example : generalMatch (strL "nok 1") = none := by decide
example : generalMatch (strL "not not ok 1") = none := by decide
example : (kyua_tap_parse [strL "5..1"]).summary.parse_error = some "No plan found in TAP output" := by decide
example : (kyua_tap_parse [strL "1..3", strL "1..3"]).summary.parse_error = some "Output includes two test plans" := by decide
example :
    (kyua_tap_parse [strL "1..1", strL "not ok 1 # TODO known issue"]).summary.ok_count = 1 := by decide
example : (kyua_tap_parse [strL "1..5 # SKIP"]).summary.parse_error = some "Reported plan differs from actual executed tests" := by decide
example : (kyua_tap_parse [strL "1..0 # SKIP no tests"]).summary.parse_error = none := by decide
example : (kyua_tap_parse [strL "1..5", strL "ok 1", strL "Bail out! crashed", strL "ok 2"]).summary.parse_error = none := by decide
example : (kyua_tap_parse [strL "1..1", strL "not ok 1"]).summary.not_ok_count = 1 := by decide

/-! ## Basic lemmas about the helpers -/

theorem leadsWith_iff (p l : List Char) : leadsWith p l = true ↔ ∃ t, l = p ++ t := by
  induction p generalizing l with
  | nil => simp [leadsWith]
  | cons a as ih =>
    cases l with
    | nil => simp [leadsWith]
    | cons b bs =>
      simp only [leadsWith, Bool.and_eq_true, beq_iff_eq, ih, List.cons_append]
      constructor
      · rintro ⟨rfl, t, rfl⟩; exact ⟨t, rfl⟩
      · rintro ⟨t, ht⟩
        injection ht with h1 h2
        exact ⟨h1.symm, t, h2⟩

theorem takeWhile_eq_self_of_all {p : Char → Bool} :
    ∀ {l : List Char}, (∀ c ∈ l, p c = true) → l.takeWhile p = l := by
  intro l h
  induction l with
  | nil => rfl
  | cons c t ih =>
    rw [List.takeWhile_cons, if_pos (h c (by simp))]
    rw [ih (fun x hx => h x (by simp [hx]))]

theorem dropWhile_eq_nil_of_all {p : Char → Bool} :
    ∀ {l : List Char}, (∀ c ∈ l, p c = true) → l.dropWhile p = [] := by
  intro l h
  induction l with
  | nil => rfl
  | cons c t ih =>
    rw [List.dropWhile_cons, if_pos (h c (by simp))]
    exact ih (fun x hx => h x (by simp [hx]))

theorem dropWhile_nonhash_of_not_contains :
    ∀ {l : List Char}, l.contains '#' = false → l.dropWhile (fun c => !(c == '#')) = [] := by
  intro l h
  apply dropWhile_eq_nil_of_all
  intro c hc
  simp only [List.contains, List.elem_eq_mem, decide_eq_false_iff_not] at h
  simp only [Bool.not_eq_true']
  exact beq_eq_false_iff_ne.2 fun hcc => h (hcc ▸ hc)

/-! ## Lemmas about the marker splitter and the matchers -/

theorem notMarker_eq : notMarker = ['n', 'o', 't', ' '] := by decide

theorem stripMarker_cases (l : List Char) :
    stripMarker l = (false, l) ∨
      ((stripMarker l).1 = true ∧ l = 'n' :: 'o' :: 't' :: ' ' :: (stripMarker l).2) := by
  unfold stripMarker
  by_cases h : leadsWith notMarker l = true
  · right
    obtain ⟨t, rfl⟩ := (leadsWith_iff _ _).1 h
    rw [if_pos h]
    simp [notMarker_eq]
  · left
    rw [if_neg (by simpa using h)]

/-- A line matching the general grammar starts, after the optional
marker, with `ok`. -/
theorem generalMatch_shape {l : List Char} {m : Bool} {g4 : List Char}
    (h : generalMatch l = some (m, g4)) :
    m = (stripMarker l).1 ∧
      ∃ r, (stripMarker l).2 = 'o' :: 'k' :: r ∧
        g4 = ((r.dropWhile isWsChar).dropWhile isDig).dropWhile (fun c => !(c == '#')) := by
  unfold generalMatch at h
  split at h
  · rename_i a b r1 heq
    split at h
    · rename_i hab
      injection h with h'
      injection h' with h1 h2
      exact ⟨h1.symm, r1, by rw [heq, hab.1, hab.2], h2.symm⟩
    · exact absurd h (by simp)
  · exact absurd h (by simp)

/-- A line matching the general grammar is nonempty and starts with `n`
or with `o`. -/
theorem generalMatch_head {l : List Char} {m : Bool} {g4 : List Char}
    (h : generalMatch l = some (m, g4)) :
    ∃ t, l = 'n' :: t ∨ l = 'o' :: t := by
  obtain ⟨-, r, hr, -⟩ := generalMatch_shape h
  rcases stripMarker_cases l with hc | ⟨-, hc⟩
  · exact ⟨'k' :: r, Or.inr (by rw [← hr, hc])⟩
  · exact ⟨'o' :: 't' :: ' ' :: (stripMarker l).2, Or.inl hc⟩

theorem planMatch_head_not_dig {c : Char} {t : List Char}
    (h1 : isDig c = false) (h2 : c ≠ '.') : planMatch (c :: t) = none := by
  unfold planMatch
  rw [List.dropWhile_cons, if_neg (by simp [h1])]
  cases t with
  | nil => rfl
  | cons b t' => simp [h2]

theorem planMatch_of_generalMatch {l : List Char} {m : Bool} {g4 : List Char}
    (h : generalMatch l = some (m, g4)) : planMatch l = none := by
  obtain ⟨t, ht | ht⟩ := generalMatch_head h <;> rw [ht]
  · exact planMatch_head_not_dig (by decide) (by decide)
  · exact planMatch_head_not_dig (by decide) (by decide)

theorem hasBailMarker_of_generalMatch {l : List Char} {m : Bool} {g4 : List Char}
    (h : generalMatch l = some (m, g4)) : hasBailMarker l = false := by
  obtain ⟨t, ht | ht⟩ := generalMatch_head h <;> rw [ht] <;> rfl

theorem ne_nil_of_generalMatch {l : List Char} {m : Bool} {g4 : List Char}
    (h : generalMatch l = some (m, g4)) : l ≠ [] := by
  obtain ⟨t, ht | ht⟩ := generalMatch_head h <;> simp [ht]

/-- A line matching the simple grammar also matches the general grammar,
with the same marker and an empty group-4 span: the simple grammar
requires the text after the digits to be `#`-free, so the general
grammar's group 3 absorbs all of it. -/
theorem contains_hash_false_of_wsHeadNoHash {cs : List Char}
    (h : wsHeadNoHash cs = true) : cs.contains '#' = false := by
  cases cs with
  | nil => exact absurd h (by simp [wsHeadNoHash])
  | cons c t =>
    unfold wsHeadNoHash at h
    simp only [Bool.and_eq_true, Bool.not_eq_true'] at h
    exact h.2

theorem generalMatch_of_simpleMatch {l : List Char} {b : Bool}
    (h : simpleMatch l = some b) : generalMatch l = some (b, []) := by
  unfold simpleMatch at h
  split at h
  · rename_i a a' r1 heq
    split at h
    · rename_i hcond
      injection h with hb
      unfold generalMatch
      simp only [heq]
      rw [if_pos ⟨hcond.1, hcond.2.1⟩, hb,
        dropWhile_nonhash_of_not_contains
          (contains_hash_false_of_wsHeadNoHash hcond.2.2.2.2)]
    · exact absurd h (by simp)
  · exact absurd h (by simp)

theorem simpleMatch_none_of_g4_ne_nil {l : List Char} {m : Bool} {g4 : List Char}
    (hg : generalMatch l = some (m, g4)) (hne : g4 ≠ []) : simpleMatch l = none := by
  cases hsm : simpleMatch l with
  | none => rfl
  | some b =>
    have := generalMatch_of_simpleMatch hsm
    rw [this] at hg
    injection hg with hg'
    injection hg' with h1 h2
    exact absurd h2.symm hne

/-! ## Lemmas about the per-line classification -/

theorem classifyLine_general {l : List Char} {m : Bool} {g4 : List Char}
    (hg : generalMatch l = some (m, g4)) (hs : simpleMatch l = none)
    (s : kyua_tap_summary) :
    classifyLine l s =
      if m && !containsCISub (strL "SKIP") g4 && !containsCISub (strL "TODO") g4 then
        { s with not_ok_count := s.not_ok_count + 1 }
      else
        { s with ok_count := s.ok_count + 1 } := by
  unfold classifyLine
  rw [hs, hg]

theorem classifyLine_ok_of_general_false {l : List Char} {g4 : List Char}
    (hg : generalMatch l = some (false, g4)) (s : kyua_tap_summary) :
    classifyLine l s = { s with ok_count := s.ok_count + 1 } := by
  cases hsm : simpleMatch l with
  | none =>
    rw [classifyLine_general hg hsm s]
    simp
  | some b =>
    have hgb := generalMatch_of_simpleMatch hsm
    rw [hgb] at hg
    injection hg with hg'
    injection hg' with h1 h2
    subst h1
    unfold classifyLine
    rw [hsm]

theorem processLine_ok_line {l : List Char} (h : isOkResultLine l = true)
    (s : kyua_tap_summary) :
    processLine l s = { s with ok_count := s.ok_count + 1 } := by
  obtain ⟨g4, hg⟩ : ∃ g4, generalMatch l = some (false, g4) := by
    unfold isOkResultLine at h
    split at h
    · rename_i g4 heq
      exact ⟨g4, heq⟩
    · exact absurd h (by simp)
  have h1 : kyua_tap_try_parse_plan l s = s := by
    unfold kyua_tap_try_parse_plan
    rw [planMatch_of_generalMatch hg]
  simp only [processLine]
  rw [h1, hasBailMarker_of_generalMatch hg]
  rw [if_neg (by simp)]
  exact classifyLine_ok_of_general_false hg s

/-! ## Lemmas about the stream loop -/

/-- Once a stop flag is set, the loop consumes, echoes and classifies
nothing: its condition is evaluated before every read. -/
theorem tapLoop_stop (s : kyua_tap_summary) (input : List (List Char))
    (h : s.parse_error ≠ none ∨ s.bail_out = true) :
    tapLoop s input = (s, [], []) := by
  cases input with
  | nil => rfl
  | cons l rest =>
    unfold tapLoop
    rw [if_pos h]

/-- A run of pass-result lines from a clean state adds exactly one to
`ok_count` per line and touches nothing else, echoing and consuming
every line. -/
theorem tapLoop_ok_run :
    ∀ (lines : List (List Char)) (s : kyua_tap_summary),
      (∀ l ∈ lines, isOkResultLine l = true) →
      s.parse_error = none → s.bail_out = false →
      tapLoop s lines = ({ s with ok_count := s.ok_count + lines.length }, lines, lines) := by
  intro lines
  induction lines with
  | nil => intro s _ _ _; simp [tapLoop]
  | cons l ls ih =>
    intro s h hp hb
    have hl := h l (by simp)
    have hne : l ≠ [] := by
      obtain ⟨g4, hg⟩ : ∃ g4, generalMatch l = some (false, g4) := by
        unfold isOkResultLine at hl
        split at hl
        · rename_i g4 heq
          exact ⟨g4, heq⟩
        · exact absurd hl (by simp)
      exact ne_nil_of_generalMatch hg
    unfold tapLoop
    rw [if_neg (by simp [hp, hb]), if_neg hne]
    rw [processLine_ok_line hl]
    rw [ih _ (fun x hx => h x (by simp [hx])) (by simp [hp]) (by simp [hb])]
    have harith : s.ok_count + 1 + ls.length = s.ok_count + (l :: ls).length := by
      simp; omega
    simp only [harith]

/-- The echo sink holds exactly the nonempty consumed lines, in order,
and the consumed lines form an initial segment of the input. -/
theorem tapLoop_echo_consumed :
    ∀ (input : List (List Char)) (s : kyua_tap_summary),
      (tapLoop s input).2.1 = (tapLoop s input).2.2.filter (fun l => !l.isEmpty) ∧
        (tapLoop s input).2.2 <+: input := by
  intro input
  induction input with
  | nil => intro s; exact ⟨rfl, ⟨[], rfl⟩⟩
  | cons line rest ih =>
    intro s
    unfold tapLoop
    by_cases hstop : s.parse_error ≠ none ∨ s.bail_out = true
    · rw [if_pos hstop]
      exact ⟨rfl, ⟨line :: rest, rfl⟩⟩
    · rw [if_neg hstop]
      by_cases hemp : line = []
      · rw [if_pos hemp]
        subst hemp
        exact ⟨rfl, ⟨rest, rfl⟩⟩
      · rw [if_neg hemp]
        obtain ⟨h1, t, h2⟩ := ih (processLine line s)
        refine ⟨?_, ⟨t, ?_⟩⟩
        · simp only [List.filter_cons]
          rw [h1]
          have hbne : (!line.isEmpty) = true := by
            simp [List.isEmpty_iff, hemp]
          rw [hbne]
          rfl
        · show (line :: (tapLoop (processLine line s) rest).2.2) ++ t = line :: rest
          rw [List.cons_append, h2]

/-- Everything after a bail-out line is invisible: the parse of a stream
that continues past a bail-out line equals the parse of the stream
truncated right after that line. -/
theorem tapLoop_bail_cut :
    ∀ (xs : List (List Char)) (s : kyua_tap_summary) (line : List Char)
      (rest : List (List Char)), hasBailMarker line = true →
      tapLoop s (xs ++ line :: rest) = tapLoop s (xs ++ [line]) := by
  intro xs
  induction xs with
  | nil =>
    intro s line rest hbail
    have hne : line ≠ [] := by
      intro hl
      rw [hl] at hbail
      exact absurd hbail (by decide)
    simp only [List.nil_append]
    unfold tapLoop
    by_cases hstop : s.parse_error ≠ none ∨ s.bail_out = true
    · rw [if_pos hstop, if_pos hstop]
    · rw [if_neg hstop, if_neg hstop, if_neg hne, if_neg hne]
      have hbo : (processLine line s).bail_out = true := by
        unfold processLine
        rw [hbail]
        simp
      rw [tapLoop_stop _ rest (Or.inr hbo), tapLoop_stop _ [] (Or.inr hbo)]
  | cons x xs ih =>
    intro s line rest hbail
    simp only [List.cons_append]
    unfold tapLoop
    by_cases hstop : s.parse_error ≠ none ∨ s.bail_out = true
    · rw [if_pos hstop, if_pos hstop]
    · rw [if_neg hstop, if_neg hstop]
      by_cases hemp : x = []
      · rw [if_pos hemp, if_pos hemp]
      · rw [if_neg hemp, if_neg hemp]
        rw [ih (processLine x s) line rest hbail]

/-- An empty line stops the loop exactly as the end of the stream does:
same final summary, same echo, and the only possible extra consumption
is the empty line itself (which happens exactly when the whole front ran
through). -/
theorem tapLoop_empty_cut :
    ∀ (xs : List (List Char)) (s : kyua_tap_summary) (rest : List (List Char)),
      (tapLoop s (xs ++ ([] : List Char) :: rest)).1 = (tapLoop s xs).1 ∧
      (tapLoop s (xs ++ ([] : List Char) :: rest)).2.1 = (tapLoop s xs).2.1 ∧
      ((tapLoop s (xs ++ ([] : List Char) :: rest)).2.2 = (tapLoop s xs).2.2 ∨
        ((tapLoop s xs).2.2 = xs ∧
          (tapLoop s (xs ++ ([] : List Char) :: rest)).2.2 = xs ++ [([] : List Char)])) := by
  intro xs
  induction xs with
  | nil =>
    intro s rest
    simp only [List.nil_append]
    by_cases hstop : s.parse_error ≠ none ∨ s.bail_out = true
    · rw [tapLoop_stop s _ hstop, tapLoop_stop s [] hstop]
      exact ⟨rfl, rfl, Or.inl rfl⟩
    · unfold tapLoop
      rw [if_neg hstop, if_pos rfl]
      exact ⟨rfl, rfl, Or.inr ⟨rfl, rfl⟩⟩
  | cons x xs ih =>
    intro s rest
    simp only [List.cons_append]
    unfold tapLoop
    by_cases hstop : s.parse_error ≠ none ∨ s.bail_out = true
    · rw [if_pos hstop, if_pos hstop]
      exact ⟨rfl, rfl, Or.inl rfl⟩
    · rw [if_neg hstop, if_neg hstop]
      by_cases hemp : x = []
      · rw [if_pos hemp, if_pos hemp]
        exact ⟨rfl, rfl, Or.inl rfl⟩
      · rw [if_neg hemp, if_neg hemp]
        obtain ⟨h1, h2, h3⟩ := ih (processLine x s) rest
        refine ⟨h1, by simp [h2], ?_⟩
        rcases h3 with h3 | ⟨h3a, h3b⟩
        · exact Or.inl (by simp [h3])
        · exact Or.inr ⟨by simp [h3a], by simp [h3b]⟩

/-! ## Decimal spellings and the plan line `1..N` -/

theorem natDigitChar_isDig {d : Nat} (h : d < 10) : isDig (natDigitChar d) = true := by
  interval_cases d <;> decide

theorem natDigitChar_val {d : Nat} (h : d < 10) : (natDigitChar d).toNat - 48 = d := by
  interval_cases d <;> decide

theorem decDigitsFuel_all_dig :
    ∀ (f n : Nat), ∀ c ∈ decDigitsFuel f n, isDig c = true := by
  intro f
  induction f with
  | zero => intro n c hc; exact absurd hc (by simp [decDigitsFuel])
  | succ f ih =>
    intro n c hc
    cases n with
    | zero => exact absurd hc (by simp [decDigitsFuel])
    | succ m =>
      unfold decDigitsFuel at hc
      rw [List.mem_append] at hc
      rcases hc with hc | hc
      · exact ih _ c hc
      · simp only [List.mem_singleton] at hc
        rw [hc]
        exact natDigitChar_isDig (Nat.mod_lt _ (by omega))

theorem natOfDigits_append (xs : List Char) (c : Char) :
    natOfDigits (xs ++ [c]) = 10 * natOfDigits xs + (c.toNat - 48) := by
  unfold natOfDigits
  rw [List.foldl_append]
  rfl

theorem decDigitsFuel_val :
    ∀ (f n : Nat), n < 10 ^ f → natOfDigits (decDigitsFuel f n) = n := by
  intro f
  induction f with
  | zero => intro n h; interval_cases n; rfl
  | succ f ih =>
    intro n h
    cases n with
    | zero => rfl
    | succ m =>
      unfold decDigitsFuel
      rw [natOfDigits_append]
      have hdiv : (m + 1) / 10 < 10 ^ f := by
        rw [Nat.div_lt_iff_lt_mul (by norm_num)]
        calc m + 1 < 10 ^ (f + 1) := h
          _ = 10 ^ f * 10 := by ring
      rw [ih _ hdiv, natDigitChar_val (Nat.mod_lt _ (by omega))]
      omega

theorem decDigitsFuel_len :
    ∀ (f n fb : Nat), n < 10 ^ fb → (decDigitsFuel f n).length ≤ fb := by
  intro f
  induction f with
  | zero => intro n fb _; simp [decDigitsFuel]
  | succ f ih =>
    intro n fb h
    cases n with
    | zero => simp [decDigitsFuel]
    | succ m =>
      cases fb with
      | zero => exact absurd h (by simp)
      | succ fb =>
        unfold decDigitsFuel
        rw [List.length_append]
        have hdiv : (m + 1) / 10 < 10 ^ fb := by
          rw [Nat.div_lt_iff_lt_mul (by norm_num)]
          calc m + 1 < 10 ^ (fb + 1) := h
            _ = 10 ^ fb * 10 := by ring
        have := ih ((m + 1) / 10) fb hdiv
        simp only [List.length_singleton]
        omega

theorem decimalRepr_val {n : Nat} (h : n < 10 ^ 64) :
    natOfDigits (decimalRepr n) = n := decDigitsFuel_val 64 n h

theorem decimalRepr_len {n fb : Nat} (h : n < 10 ^ fb) :
    (decimalRepr n).length ≤ fb := decDigitsFuel_len 64 n fb h

theorem decimalRepr_ne_nil {n : Nat} (h : 1 ≤ n) : decimalRepr n ≠ [] := by
  cases n with
  | zero => omega
  | succ m =>
    unfold decimalRepr decDigitsFuel
    simp

theorem planLine_drop (n : Nat) :
    (planLine n).dropWhile isDig = '.' :: '.' :: decimalRepr n := by
  unfold planLine
  rw [List.dropWhile_cons, if_pos (by decide), List.dropWhile_cons, if_neg (by decide)]

theorem planLine_take (n : Nat) : (planLine n).takeWhile isDig = ['1'] := by
  unfold planLine
  rw [List.takeWhile_cons, if_pos (by decide), List.takeWhile_cons, if_neg (by decide)]

theorem planMatch_planLine {n : Nat} (h1 : 1 ≤ n) :
    planMatch (planLine n) = some (['1'], decimalRepr n, none) := by
  have hall : ∀ c ∈ decimalRepr n, isDig c = true :=
    fun c hc => decDigitsFuel_all_dig 64 n c hc
  have htw : (decimalRepr n).takeWhile isDig = decimalRepr n :=
    takeWhile_eq_self_of_all hall
  have hdw : (decimalRepr n).dropWhile isDig = [] :=
    dropWhile_eq_nil_of_all hall
  unfold planMatch
  simp only [planLine_drop, planLine_take, htw, hdw]
  simp [decimalRepr_ne_nil h1]

theorem stripMarker_head_ne {c : Char} {t : List Char} (h : c ≠ 'n') :
    stripMarker (c :: t) = (false, c :: t) := by
  unfold stripMarker
  rw [if_neg]
  intro hlw
  rw [notMarker_eq] at hlw
  obtain ⟨t', ht'⟩ := (leadsWith_iff _ _).1 hlw
  injection ht' with h1 _
  exact h h1

theorem simpleMatch_head_ne {c : Char} {t : List Char} (hn : c ≠ 'n') (ho : c ≠ 'o') :
    simpleMatch (c :: t) = none := by
  unfold simpleMatch
  have hs := stripMarker_head_ne (t := t) hn
  split
  · rename_i a b r1 heq
    rw [hs] at heq
    simp only at heq
    injection heq with h1 _
    rw [if_neg]
    rintro ⟨hao, -⟩
    exact ho (h1.symm ▸ hao)
  · rfl

theorem generalMatch_head_ne {c : Char} {t : List Char} (hn : c ≠ 'n') (ho : c ≠ 'o') :
    generalMatch (c :: t) = none := by
  unfold generalMatch
  have hs := stripMarker_head_ne (t := t) hn
  split
  · rename_i a b r1 heq
    rw [hs] at heq
    simp only at heq
    injection heq with h1 _
    rw [if_neg]
    rintro ⟨hao, -⟩
    exact ho (h1.symm ▸ hao)
  · rfl

theorem classifyLine_no_match {l : List Char} (hs : simpleMatch l = none)
    (hg : generalMatch l = none) (s : kyua_tap_summary) : classifyLine l s = s := by
  unfold classifyLine
  rw [hs, hg]

theorem hasBailMarker_planLine (n : Nat) : hasBailMarker (planLine n) = false := by
  unfold hasBailMarker planLine
  rw [(by decide : strL "Bail out!" = 'B' :: strL "ail out!")]
  simp [leadsWith, (by decide : ('B' == '1') = false)]

/-- Processing the plan line `1..N` from the fresh summary commits the
bounds `1` and `N`: the duplicate check passes, both captures are in
range, there is no directive, and `N ≥ 1` rules the reversed-plan error
out; the line matches neither result grammar and is no bail-out. -/
theorem processLine_planLine {n : Nat} (h1 : 1 ≤ n) (hmax : n < LONG_MAX) :
    processLine (planLine n) kyua_tap_summary_new =
      { kyua_tap_summary_new with first_index := 1, last_index := (n : Int) } := by
  have h19 : n < 10 ^ 19 := by
    have : LONG_MAX < 10 ^ 19 := by norm_num [LONG_MAX]
    omega
  have h64 : n < 10 ^ 64 := by
    have : (10 : Nat) ^ 19 ≤ 10 ^ 64 := Nat.pow_le_pow_right (by norm_num) (by norm_num)
    omega
  have hrm : regex_match_too_long (decimalRepr n) = .ok n := by
    unfold regex_match_too_long
    have hlen : (decimalRepr n).length ≤ 19 := decimalRepr_len h19
    rw [if_neg (by omega), decimalRepr_val h64, if_neg (by omega)]
  have h911 : regex_match_too_long ['1'] = Except.ok 1 := by
    have hv : natOfDigits ['1'] = 1 := by decide
    unfold regex_match_too_long
    rw [hv, if_neg (by norm_num), if_neg (by norm_num [LONG_MAX])]
  have htp : kyua_tap_try_parse_plan (planLine n) kyua_tap_summary_new =
      planCommit { kyua_tap_summary_new with skipped_all := false } 1 n := by
    unfold kyua_tap_try_parse_plan
    simp only [planMatch_planLine h1, hrm, h911]
    rw [if_neg (by decide)]
  have hsm : simpleMatch (planLine n) = none := by
    unfold planLine
    exact simpleMatch_head_ne (by decide) (by decide)
  have hgm : generalMatch (planLine n) = none := by
    unfold planLine
    exact generalMatch_head_ne (by decide) (by decide)
  simp only [processLine]
  rw [htp, hasBailMarker_planLine n, if_neg (by simp)]
  rw [classifyLine_no_match hsm hgm]
  unfold planCommit
  rw [if_neg (by rintro ⟨-, hlt⟩; omega)]
  rfl

/-! ## Lemmas about the post-loop validation -/

theorem validateSummary_noplan {s : kyua_tap_summary} (h : s.first_index = -1) :
    validateSummary s = { s with parse_error := some "No plan found in TAP output" } := by
  unfold validateSummary
  rw [if_pos h]

theorem validateSummary_keeps {s : kyua_tap_summary} (h1 : s.first_index ≠ -1)
    (h2 : s.parse_error ≠ none) : validateSummary s = s := by
  unfold validateSummary
  rw [if_neg h1, if_neg (by rintro ⟨hp, -⟩; exact h2 hp)]

theorem validateSummary_counts {s : kyua_tap_summary} (h1 : s.first_index ≠ -1)
    (h2 : s.parse_error = none) (h3 : s.bail_out = false) :
    validateSummary s =
      if s.last_index - s.first_index + 1 ≠ (s.ok_count : Int) + (s.not_ok_count : Int) then
        { s with parse_error := some "Reported plan differs from actual executed tests" }
      else s := by
  unfold validateSummary
  rw [if_neg h1, if_pos ⟨h2, h3⟩]

/-! ## The all-pass stream `1..N`, `ok`, ..., `ok` -/

theorem tapLoop_c1 {n : Nat} {lines : List (List Char)} (h1 : 1 ≤ n)
    (hmax : n < LONG_MAX) (hok : ∀ l ∈ lines, isOkResultLine l = true) :
    tapLoop kyua_tap_summary_new (planLine n :: lines) =
      ({ kyua_tap_summary_new with
          first_index := 1
          last_index := (n : Int)
          ok_count := lines.length },
        planLine n :: lines, planLine n :: lines) := by
  unfold tapLoop
  rw [if_neg (by simp [kyua_tap_summary_new])]
  rw [if_neg (by unfold planLine; simp)]
  rw [processLine_planLine h1 hmax]
  rw [tapLoop_ok_run lines _ hok rfl rfl]
  simp [kyua_tap_summary_new]

/-- C1 (amended).  For every `N` with `1 ≤ N < LONG_MAX`, parsing the
stream made of the plan line `1..N` followed by exactly `N` result lines
each matching a result grammar with no `not ` marker ends with
`ok_count = N`, `not_ok_count = 0`, `parse_error` unset, and the call
returns success.  (The bound `N < LONG_MAX` is forced: at
`N = LONG_MAX` the plan's second capture is rejected as out of range —
see the accompanying refutation.) -/
theorem tap_parse_all_pass_stream (n : Nat) (lines : List (List Char))
    (h1 : 1 ≤ n) (hmax : n < LONG_MAX) (hlen : lines.length = n)
    (hok : ∀ l ∈ lines, isOkResultLine l = true) :
    (kyua_tap_parse (planLine n :: lines)).summary.ok_count = n ∧
    (kyua_tap_parse (planLine n :: lines)).summary.not_ok_count = 0 ∧
    (kyua_tap_parse (planLine n :: lines)).summary.parse_error = none ∧
    (kyua_tap_parse (planLine n :: lines)).error = none := by
  simp only [kyua_tap_parse, tapLoop_c1 h1 hmax hok]
  rw [validateSummary_counts (by simp) rfl rfl]
  rw [if_neg (by simp [kyua_tap_summary_new, hlen])]
  simp [kyua_tap_summary_new, hlen]

/-- Witness for C1's amended theorem at `N = 2`. -/
theorem tap_parse_all_pass_stream_witness :
    (kyua_tap_parse (planLine 2 :: [strL "ok 1 alpha", strL "ok 2 beta"])).summary.ok_count = 2 ∧
    (kyua_tap_parse (planLine 2 :: [strL "ok 1 alpha", strL "ok 2 beta"])).summary.not_ok_count = 0 ∧
    (kyua_tap_parse (planLine 2 :: [strL "ok 1 alpha", strL "ok 2 beta"])).summary.parse_error = none ∧
    (kyua_tap_parse (planLine 2 :: [strL "ok 1 alpha", strL "ok 2 beta"])).error = none :=
  tap_parse_all_pass_stream 2 [strL "ok 1 alpha", strL "ok 2 beta"]
    (by norm_num) (by norm_num [LONG_MAX]) (by decide) (by decide)

/-- C1 (refutation of the unbounded claim).  At `N = LONG_MAX` the
stream of the claim — the plan line `1..N` followed by `N` result lines
`ok` — does not end with `parse_error` unset: `strtol`'s range check
rejects the second capture, the loop stops, no plan is committed, and
the post-loop validation reports "No plan found in TAP output". -/
theorem tap_parse_all_pass_longmax_refuted :
    isOkResultLine okLine = true ∧
    (kyua_tap_parse
        (planLine LONG_MAX :: List.replicate LONG_MAX okLine)).summary.parse_error ≠ none := by
  refine ⟨by decide, ?_⟩
  have hs1 : processLine (planLine LONG_MAX) kyua_tap_summary_new =
      { kyua_tap_summary_new with
          parse_error := some "Plan line includes out of range numbers" } := by decide
  have hloop : tapLoop kyua_tap_summary_new (planLine LONG_MAX :: List.replicate LONG_MAX okLine) =
      ({ kyua_tap_summary_new with
          parse_error := some "Plan line includes out of range numbers" },
        [planLine LONG_MAX], [planLine LONG_MAX]) := by
    unfold tapLoop
    rw [if_neg (by decide), if_neg (by decide)]
    rw [hs1, tapLoop_stop _ _ (Or.inl (by simp))]
  simp only [kyua_tap_parse, hloop]
  rw [validateSummary_noplan (by decide)]
  simp

/-- C2 (amended).  The echo sink receives exactly the consumed lines
except a terminating empty line: the echoed sequence equals the
consumed sequence with empty lines removed (only a terminating empty
line can ever be consumed without being echoed), verbatim and in
arrival order with no line skipped or duplicated, and the consumed
sequence is an initial segment of the input stream. -/
theorem tap_parse_echo_consumed (input : List (List Char)) :
    (kyua_tap_parse input).echoed =
      (kyua_tap_parse input).consumed.filter (fun l => !l.isEmpty) ∧
    (kyua_tap_parse input).consumed <+: input := by
  obtain ⟨h1, h2⟩ := tapLoop_echo_consumed input kyua_tap_summary_new
  exact ⟨h1, h2⟩

/-- C2 (refutation).  On the stream consisting of one empty line, the
empty line is consumed (it is read by `fgets` and stops the loop) but
never echoed, so the echo sink does not equal the consumed sequence up
to and including the stop-triggering line. -/
theorem tap_parse_echo_empty_line_refuted :
    (kyua_tap_parse [([] : List Char)]).consumed = [[]] ∧
    (kyua_tap_parse [([] : List Char)]).echoed = [] ∧
    (kyua_tap_parse [([] : List Char)]).echoed ≠
      (kyua_tap_parse [([] : List Char)]).consumed := by
  refine ⟨by decide, by decide, by decide⟩

/-- C3 (amended).  `parse_error` is assigned at most once during the
line loop — the loop never runs a body once it is set — and the
count-consistency branch of the post-loop validation never overrides an
already-set `parse_error`; but the no-plan branch does overwrite it
whenever no plan was committed.  In particular, parsing `"5..1\n"` sets
"Test plan is reversed" during the loop (without committing the plan)
and the post-loop validation then overwrites it, so the run ends with
`parse_error = "No plan found in TAP output"`. -/
theorem tap_parse_error_stickiness :
    (∀ (s : kyua_tap_summary) (input : List (List Char)),
        s.parse_error ≠ none → tapLoop s input = (s, [], [])) ∧
    (∀ s : kyua_tap_summary, s.first_index ≠ -1 → s.parse_error ≠ none →
        (validateSummary s).parse_error = s.parse_error) ∧
    (tapLoop kyua_tap_summary_new [strL "5..1"]).1.parse_error =
      some "Test plan is reversed" ∧
    (kyua_tap_parse [strL "5..1"]).summary.parse_error =
      some "No plan found in TAP output" := by
  refine ⟨fun s input h => tapLoop_stop s input (Or.inl h), fun s h1 h2 => ?_, by decide, by decide⟩
  rw [validateSummary_keeps h1 h2]

/-- Witness for C3's amended theorem.  -/
theorem tap_parse_error_stickiness_witness :
    (validateSummary
        { first_index := 2, last_index := 5, ok_count := 0, not_ok_count := 0,
          skipped_all := false, bail_out := false,
          parse_error := some "Output includes two test plans" }).parse_error =
      some "Output includes two test plans" :=
  tap_parse_error_stickiness.2.1
    { first_index := 2, last_index := 5, ok_count := 0, not_ok_count := 0,
      skipped_all := false, bail_out := false,
      parse_error := some "Output includes two test plans" }
    (by decide) (by decide)

/-- C3 (refutation).  Parsing `"5..1\n"` does not end with
`parse_error = "Test plan is reversed"`: the post-loop validation
overwrites the reversed-plan error (the plan was never committed, so
`first_index` is still the sentinel) with "No plan found in TAP
output". -/
theorem tap_parse_reversed_plan_refuted :
    (kyua_tap_parse [strL "5..1"]).summary.parse_error ≠ some "Test plan is reversed" ∧
    (kyua_tap_parse [strL "5..1"]).summary.parse_error =
      some "No plan found in TAP output" := by
  refine ⟨by decide, by decide⟩

/-- C4 (amended).  `skipped_all` does not bypass the final
count-consistency check in this code: even when `skipped_all` is true
at the end of the loop, if no `parse_error` is set, no bail-out
occurred and a plan was committed, the check still compares
`last_index - first_index + 1` with `ok_count + not_ok_count` and sets
"Reported plan differs from actual executed tests" whenever they
differ.  The spec's skip-all example `"1..0 # SKIP no tests\n"` ends
with `parse_error` unset only because its expected count `0 - 1 + 1`
equals the observed count `0`. -/
theorem tap_validator_ignores_skipped_all :
    (∀ s : kyua_tap_summary, s.skipped_all = true → s.first_index ≠ -1 →
        s.parse_error = none → s.bail_out = false →
        (validateSummary s).parse_error =
          if s.last_index - s.first_index + 1 ≠ (s.ok_count : Int) + (s.not_ok_count : Int) then
            some "Reported plan differs from actual executed tests"
          else none) ∧
    (kyua_tap_parse [strL "1..0 # SKIP no tests"]).summary.skipped_all = true ∧
    (kyua_tap_parse [strL "1..0 # SKIP no tests"]).summary.parse_error = none := by
  refine ⟨fun s hskip h1 h2 h3 => ?_, by decide, by decide⟩
  rw [validateSummary_counts h1 h2 h3]
  split
  · rfl
  · exact h2

/-- Witness for C4's amended theorem: a skip-all summary whose plan
declares five tests while zero results were seen still gets the
mismatch error. -/
theorem tap_validator_ignores_skipped_all_witness :
    (validateSummary
        { first_index := 1, last_index := 5, ok_count := 0, not_ok_count := 0,
          skipped_all := true, bail_out := false, parse_error := none }).parse_error =
      some "Reported plan differs from actual executed tests" := by
  rw [tap_validator_ignores_skipped_all.1
    { first_index := 1, last_index := 5, ok_count := 0, not_ok_count := 0,
      skipped_all := true, bail_out := false, parse_error := none }
    (by decide) (by decide) (by decide) (by decide)]
  decide

/-- C4 (refutation).  A skip-all plan `"1..5 # SKIP"` with zero result
lines ends with `skipped_all = true` and yet with
`parse_error = "Reported plan differs from actual executed tests"`:
the final count check is not skipped. -/
theorem tap_skip_all_mismatch_refuted :
    (kyua_tap_parse [strL "1..5 # SKIP"]).summary.skipped_all = true ∧
    (kyua_tap_parse [strL "1..5 # SKIP"]).summary.parse_error =
      some "Reported plan differs from actual executed tests" := by
  refine ⟨by decide, by decide⟩

/-! ## C5 and C6: classification under the general grammar -/

/-- C5.  A result line matching the general grammar with the `not `
marker present and a nonempty trailing (group-4) capture that contains
`SKIP` or `TODO` case-insensitively is counted as a pass: it increments
`ok_count`, not `not_ok_count`.  (Such a line cannot match the simple
grammar: a nonempty group 4 starts at a `#`, which the simple grammar
excludes.)  In particular `"1..1\nnot ok 1 # TODO known issue\n"` ends
with `ok_count = 1` and `not_ok_count = 0`. -/
theorem tap_todo_skip_downgrade :
    (∀ (l : List Char) (s : kyua_tap_summary) (g4 : List Char),
        generalMatch l = some (true, g4) → g4 ≠ [] →
        (containsCISub (strL "SKIP") g4 = true ∨ containsCISub (strL "TODO") g4 = true) →
        classifyLine l s = { s with ok_count := s.ok_count + 1 }) ∧
    (kyua_tap_parse [strL "1..1", strL "not ok 1 # TODO known issue"]).summary.ok_count = 1 ∧
    (kyua_tap_parse [strL "1..1", strL "not ok 1 # TODO known issue"]).summary.not_ok_count = 0 := by
  refine ⟨fun l s g4 hg hne hci => ?_, by decide, by decide⟩
  have hsm := simpleMatch_none_of_g4_ne_nil hg hne
  rw [classifyLine_general hg hsm s, if_neg (by rcases hci with hc | hc <;> simp [hc])]

/-- Witness for C5 at the line `not ok 9 # todo later` (lower-case
directive, exercising the case-insensitive search). -/
theorem tap_todo_skip_downgrade_witness :
    classifyLine (strL "not ok 9 # todo later") kyua_tap_summary_new =
      { kyua_tap_summary_new with ok_count := kyua_tap_summary_new.ok_count + 1 } :=
  tap_todo_skip_downgrade.1 (strL "not ok 9 # todo later") kyua_tap_summary_new
    (strL "# todo later") (by decide) (by decide) (Or.inr (by decide))

theorem tapLoop_cons_go (s : kyua_tap_summary) (line : List Char)
    (rest : List (List Char)) (hpe : s.parse_error = none) (hb : s.bail_out = false)
    (hne : line ≠ []) :
    tapLoop s (line :: rest) =
      ((tapLoop (processLine line s) rest).1,
        line :: (tapLoop (processLine line s) rest).2.1,
        line :: (tapLoop (processLine line s) rest).2.2) := by
  unfold tapLoop
  rw [if_neg (by simp [hpe, hb]), if_neg hne, ← tapLoop.eq_def]

/-- C6 (amended).  When a line matches the general result grammar (and
not the simple one), its fourth capture always participates — possibly
as an empty span, by the POSIX preference of a null subexpression match
over no participation — so the line is counted as a failure exactly
when the `not ` marker is present and the suffix of the line from the
fourth capture's start contains neither `SKIP` nor `TODO`
case-insensitively.  A `not ok` line with no trailing text (empty
fourth capture) therefore counts as a failure, not as a pass. -/
theorem tap_general_not_ok_classification :
    (∀ (l : List Char) (m : Bool) (g4 : List Char),
        generalMatch l = some (m, g4) → simpleMatch l = none →
        (kyua_tap_parse [strL "1..1", l]).summary.not_ok_count =
          (if (m && !containsCISub (strL "SKIP") g4 && !containsCISub (strL "TODO") g4) = true
            then 1 else 0) ∧
        (kyua_tap_parse [strL "1..1", l]).summary.ok_count =
          (if (m && !containsCISub (strL "SKIP") g4 && !containsCISub (strL "TODO") g4) = true
            then 0 else 1) ∧
        (kyua_tap_parse [strL "1..1", l]).summary.parse_error = none) ∧
    (classifyLine (strL "not ok 1") kyua_tap_summary_new).not_ok_count = 1 := by
  refine ⟨fun l m g4 hg hs => ?_, by decide⟩
  have hne := ne_nil_of_generalMatch hg
  have hplan := planMatch_of_generalMatch hg
  have hbail := hasBailMarker_of_generalMatch hg
  have h1 : processLine (strL "1..1") kyua_tap_summary_new =
      { first_index := 1, last_index := 1, ok_count := 0, not_ok_count := 0,
        skipped_all := false, bail_out := false, parse_error := none } := by decide
  have htl : kyua_tap_try_parse_plan l
      { first_index := 1, last_index := 1, ok_count := 0, not_ok_count := 0,
        skipped_all := false, bail_out := false, parse_error := none } =
      { first_index := 1, last_index := 1, ok_count := 0, not_ok_count := 0,
        skipped_all := false, bail_out := false, parse_error := none } := by
    unfold kyua_tap_try_parse_plan
    rw [hplan]
  have hpl : processLine l
      { first_index := 1, last_index := 1, ok_count := 0, not_ok_count := 0,
        skipped_all := false, bail_out := false, parse_error := none } =
      classifyLine l
        { first_index := 1, last_index := 1, ok_count := 0, not_ok_count := 0,
          skipped_all := false, bail_out := false, parse_error := none } := by
    simp only [processLine]
    rw [htl, hbail, if_neg (by simp)]
  have e1 := tapLoop_cons_go kyua_tap_summary_new (strL "1..1") [l] rfl rfl (by decide)
  rw [h1] at e1
  have e2 := tapLoop_cons_go
    { first_index := 1, last_index := 1, ok_count := 0, not_ok_count := 0,
      skipped_all := false, bail_out := false, parse_error := none } l [] rfl rfl hne
  rw [hpl] at e2
  rw [e2] at e1
  simp only [kyua_tap_parse, e1]
  have e3 : ∀ x : kyua_tap_summary, tapLoop x [] = (x, [], []) := fun x => rfl
  rw [e3]
  rw [classifyLine_general hg hs]
  by_cases hcond :
      (m && !containsCISub (strL "SKIP") g4 && !containsCISub (strL "TODO") g4) = true
  · rw [if_pos hcond, if_pos hcond, if_pos hcond]
    exact ⟨by decide, by decide, by decide⟩
  · rw [if_neg hcond, if_neg hcond, if_neg hcond]
    exact ⟨by decide, by decide, by decide⟩

/-- Witness for C6's amended theorem at the line `not ok 7 # real
failure`, which has the marker and a nonempty fourth capture with no
`SKIP`/`TODO`: it is counted as a failure. -/
theorem tap_general_not_ok_classification_witness :
    (kyua_tap_parse [strL "1..1", strL "not ok 7 # real failure"]).summary.not_ok_count =
      (if (true && !containsCISub (strL "SKIP") (strL "# real failure") &&
            !containsCISub (strL "TODO") (strL "# real failure")) = true then 1 else 0) ∧
    (kyua_tap_parse [strL "1..1", strL "not ok 7 # real failure"]).summary.ok_count =
      (if (true && !containsCISub (strL "SKIP") (strL "# real failure") &&
            !containsCISub (strL "TODO") (strL "# real failure")) = true then 0 else 1) ∧
    (kyua_tap_parse [strL "1..1", strL "not ok 7 # real failure"]).summary.parse_error = none :=
  tap_general_not_ok_classification.1 (strL "not ok 7 # real failure") true
    (strL "# real failure") (by decide) (by decide)

/-- C6 (refutation of the claim as stated).  The line `not ok 1` —
marker present, no trailing text, so the fourth capture participates
with an empty span — increments `not_ok_count`, not `ok_count`, contrary
to the claim that every matching case without a nonempty trailing
capture counts as a pass. -/
theorem tap_not_ok_empty_directive_refuted :
    generalMatch (strL "not ok 1") = some (true, []) ∧
    (kyua_tap_parse [strL "1..1", strL "not ok 1"]).summary.not_ok_count = 1 ∧
    (kyua_tap_parse [strL "1..1", strL "not ok 1"]).summary.ok_count = 0 := by
  refine ⟨by decide, by decide, by decide⟩

/-! ## C7: bail-out -/

/-- C7.  Once a line beginning with `Bail out!` is consumed, the rest of
the stream is invisible: the whole parse result (summary, echo,
consumption, return value) equals that of the stream truncated right
after the bail-out line, so no later line is consumed or classified and
the counters and plan bounds never change afterwards; moreover the
post-loop validation never produces the count-mismatch error once
`bail_out` is set.  The spec's example stream ends with
`bail_out = true`, `parse_error` unset and `ok_count = 1`. -/
theorem tap_bail_out_stops_classification :
    (∀ (xs : List (List Char)) (line : List Char) (rest : List (List Char)),
        hasBailMarker line = true →
        kyua_tap_parse (xs ++ line :: rest) = kyua_tap_parse (xs ++ [line])) ∧
    (∀ s : kyua_tap_summary, s.bail_out = true →
        s.parse_error ≠ some "Reported plan differs from actual executed tests" →
        (validateSummary s).parse_error ≠
          some "Reported plan differs from actual executed tests") ∧
    ((kyua_tap_parse
        [strL "1..5", strL "ok 1", strL "Bail out! crashed", strL "ok 2"]).summary.bail_out =
      true ∧
     (kyua_tap_parse
        [strL "1..5", strL "ok 1", strL "Bail out! crashed", strL "ok 2"]).summary.parse_error =
      none ∧
     (kyua_tap_parse
        [strL "1..5", strL "ok 1", strL "Bail out! crashed", strL "ok 2"]).summary.ok_count = 1) := by
  refine ⟨fun xs line rest h => ?_, fun s hb hne => ?_, by decide, by decide, by decide⟩
  · simp only [kyua_tap_parse, tapLoop_bail_cut xs kyua_tap_summary_new line rest h]
  · by_cases hfi : s.first_index = -1
    · rw [validateSummary_noplan hfi]
      intro hcontra
      simp only at hcontra
      exact absurd hcontra (by decide)
    · unfold validateSummary
      rw [if_neg hfi, if_neg (by rintro ⟨-, hbf⟩; rw [hb] at hbf; exact absurd hbf (by simp))]
      exact hne

/-- Witness for C7: truncating the example stream right after its
bail-out line does not change the parse outcome. -/
theorem tap_bail_out_stops_classification_witness :
    kyua_tap_parse ([strL "1..1"] ++ strL "Bail out! now" :: [strL "ok 1"]) =
      kyua_tap_parse ([strL "1..1"] ++ [strL "Bail out! now"]) :=
  tap_bail_out_stops_classification.1 [strL "1..1"] (strL "Bail out! now") [strL "ok 1"]
    (by decide)

/-! ## C8: duplicate plans -/

/-- C8.  If a plan was already accepted (`first_index` differs from the
sentinel `-1`), every further line matching the plan grammar makes the
plan probe set `parse_error = "Output includes two test plans"` and
leave every other field — in particular `first_index` and `last_index`
— unchanged; the stream `"1..3\n1..3\n"` ends with that error. -/
theorem tap_duplicate_plan_error :
    (∀ (line : List Char) (s : kyua_tap_summary)
        (cap : List Char × List Char × Option (List Char)),
        planMatch line = some cap → s.first_index ≠ -1 →
        kyua_tap_try_parse_plan line s =
          { s with parse_error := some "Output includes two test plans" }) ∧
    (kyua_tap_parse [strL "1..3", strL "1..3"]).summary.parse_error =
      some "Output includes two test plans" := by
  refine ⟨fun line s cap hpm hfi => ?_, by decide⟩
  obtain ⟨d1, d2, t?⟩ := cap
  unfold kyua_tap_try_parse_plan
  simp only [hpm]
  rw [if_pos hfi]

/-- Witness for C8: probing the plan line `1..3` against a summary that
already committed the plan `(1, 3)`. -/
theorem tap_duplicate_plan_error_witness :
    kyua_tap_try_parse_plan (strL "1..3")
      { first_index := 1, last_index := 3, ok_count := 0, not_ok_count := 0,
        skipped_all := false, bail_out := false, parse_error := none } =
      { first_index := 1, last_index := 3, ok_count := 0, not_ok_count := 0,
        skipped_all := false, bail_out := false,
        parse_error := some "Output includes two test plans" } :=
  tap_duplicate_plan_error.1 (strL "1..3")
    { first_index := 1, last_index := 3, ok_count := 0, not_ok_count := 0,
      skipped_all := false, bail_out := false, parse_error := none }
    (strL "1", strL "3", none) (by decide) (by decide)

/-! ## C9: numeric bounds of the plan captures -/

theorem regex_match_too_long_ok {cap : List Char} {v : Nat}
    (h : regex_match_too_long cap = .ok v) : v = natOfDigits cap ∧ v < LONG_MAX := by
  unfold regex_match_too_long at h
  split at h
  · exact absurd h (by simp)
  · split at h
    · exact absurd h (by simp)
    · rename_i hlen hrange
      injection h with hv
      exact ⟨hv.symm, by omega⟩

theorem planCommit_cases (s : kyua_tap_summary) (fi li : Nat) :
    planCommit s fi li = { s with parse_error := some "Test plan is reversed" } ∨
      planCommit s fi li = { s with first_index := (fi : Int), last_index := (li : Int) } := by
  unfold planCommit
  split
  · exact Or.inl rfl
  · exact Or.inr rfl

theorem planSkipFlags_bounds (s : kyua_tap_summary) (t : List Char) :
    (planSkipFlags s t).first_index = s.first_index ∧
      (planSkipFlags s t).last_index = s.last_index := by
  unfold planSkipFlags
  split
  · split <;> exact ⟨rfl, rfl⟩
  · exact ⟨rfl, rfl⟩

theorem planDirective_bounds (s : kyua_tap_summary) (t : List Char) (fi li : Nat) :
    ((planDirective s t fi li).first_index = s.first_index ∧
      (planDirective s t fi li).last_index = s.last_index) ∨
    ((planDirective s t fi li).first_index = (fi : Int) ∧
      (planDirective s t fi li).last_index = (li : Int)) := by
  unfold planDirective
  split
  · exact Or.inl ⟨rfl, rfl⟩
  · rcases planCommit_cases (planSkipFlags s t) fi li with hc | hc <;> rw [hc]
    · exact Or.inl ⟨(planSkipFlags_bounds s t).1, (planSkipFlags_bounds s t).2⟩
    · exact Or.inr ⟨rfl, rfl⟩

/-- C9.  The plan-line probe's number handling: a capture longer than
the 63-digit budget is rejected with "Plan line too long"; a capture
within the budget whose value is outside the signed-long range is
rejected with "Plan line includes out of range numbers"; an accepted
capture's value is exactly its mathematical value and lies below
`LONG_MAX`; and whenever the probe changes `first_index`/`last_index`
it commits exactly the mathematical values of the two captures, both
below `LONG_MAX` — never a wrapped or truncated value. -/
theorem tap_plan_number_bounds :
    (∀ cap : List Char, 63 < cap.length →
        regex_match_too_long cap = .error "Plan line too long") ∧
    (∀ cap : List Char, cap.length ≤ 63 → LONG_MAX < natOfDigits cap →
        regex_match_too_long cap = .error "Plan line includes out of range numbers") ∧
    (∀ (cap : List Char) (v : Nat), regex_match_too_long cap = .ok v →
        v = natOfDigits cap ∧ v < LONG_MAX) ∧
    (∀ (line : List Char) (s : kyua_tap_summary),
        (kyua_tap_try_parse_plan line s).first_index ≠ s.first_index ∨
          (kyua_tap_try_parse_plan line s).last_index ≠ s.last_index →
        ∃ d1 d2 t, planMatch line = some (d1, d2, t) ∧
          (kyua_tap_try_parse_plan line s).first_index = ((natOfDigits d1 : Nat) : Int) ∧
          (kyua_tap_try_parse_plan line s).last_index = ((natOfDigits d2 : Nat) : Int) ∧
          natOfDigits d1 < LONG_MAX ∧ natOfDigits d2 < LONG_MAX) := by
  refine ⟨fun cap h => ?_, fun cap h1 h2 => ?_, fun cap v h => regex_match_too_long_ok h,
    fun line s hch => ?_⟩
  · unfold regex_match_too_long
    rw [if_pos h]
  · unfold regex_match_too_long
    rw [if_neg (by omega), if_pos (by omega)]
  · rcases hpm : planMatch line with - | ⟨d1, d2, t?⟩
    · unfold kyua_tap_try_parse_plan at hch
      simp only [hpm] at hch
      simp at hch
    · unfold kyua_tap_try_parse_plan at hch ⊢
      simp only [hpm] at hch ⊢
      by_cases hfi : s.first_index ≠ -1
      · rw [if_pos hfi] at hch
        simp at hch
      · rw [if_neg hfi] at hch ⊢
        cases hr1 : regex_match_too_long d1 with
        | error e =>
          simp only [hr1] at hch
          simp at hch
        | ok fi =>
          cases hr2 : regex_match_too_long d2 with
          | error e =>
            simp only [hr1, hr2] at hch
            simp at hch
          | ok li =>
            simp only [hr1, hr2] at hch ⊢
            obtain ⟨hv1, hb1⟩ := regex_match_too_long_ok hr1
            obtain ⟨hv2, hb2⟩ := regex_match_too_long_ok hr2
            rcases t? with - | t
            · rcases planCommit_cases { s with skipped_all := false } fi li with hc | hc <;>
                rw [hc] at hch ⊢
              · simp at hch
              · exact ⟨d1, d2, none, rfl, by rw [hv1], by rw [hv2],
                  hv1 ▸ hb1, hv2 ▸ hb2⟩
            · rcases planDirective_bounds { s with skipped_all := false } t fi li with
                ⟨ha, hb⟩ | ⟨ha, hb⟩
              · rw [ha, hb] at hch
                simp at hch
              · exact ⟨d1, d2, some t, rfl, by rw [ha, hv1], by rw [hb, hv2],
                  hv1 ▸ hb1, hv2 ▸ hb2⟩

/-- Witness for C9: a 64-digit capture is "too long"; a 20-digit capture
of all nines is "out of range". -/
theorem tap_plan_number_bounds_witness :
    regex_match_too_long (List.replicate 64 '1') = .error "Plan line too long" ∧
    regex_match_too_long (List.replicate 20 '9') =
      .error "Plan line includes out of range numbers" :=
  ⟨tap_plan_number_bounds.1 (List.replicate 64 '1') (by decide),
    tap_plan_number_bounds.2.1 (List.replicate 20 '9') (by decide) (by decide)⟩

/-! ## C10: the empty line terminates the loop like the end of stream -/

/-- C10.  A stream containing an empty line parses exactly as the
stream truncated before it: same final summary (the post-loop
validation thus runs on the state accumulated so far), same echo (the
empty line is never echoed), same return value; and nothing beyond the
empty line is ever consumed. -/
theorem tap_empty_line_terminates_like_eof (xs rest : List (List Char)) :
    (kyua_tap_parse (xs ++ ([] : List Char) :: rest)).summary =
      (kyua_tap_parse xs).summary ∧
    (kyua_tap_parse (xs ++ ([] : List Char) :: rest)).echoed =
      (kyua_tap_parse xs).echoed ∧
    (kyua_tap_parse (xs ++ ([] : List Char) :: rest)).error =
      (kyua_tap_parse xs).error ∧
    (kyua_tap_parse (xs ++ ([] : List Char) :: rest)).consumed <+:
      xs ++ [([] : List Char)] := by
  obtain ⟨h1, h2, h3⟩ := tapLoop_empty_cut xs kyua_tap_summary_new rest
  refine ⟨?_, ?_, rfl, ?_⟩
  · simp only [kyua_tap_parse]
    rw [h1]
  · simp only [kyua_tap_parse]
    rw [h2]
  · obtain ⟨-, hpre⟩ := tapLoop_echo_consumed xs kyua_tap_summary_new
    simp only [kyua_tap_parse]
    rcases h3 with h3 | ⟨-, h3b⟩
    · rw [h3]
      obtain ⟨t, ht⟩ := hpre
      exact ⟨t ++ [[]], by rw [← List.append_assoc, ht]⟩
    · rw [h3b]
